import Mathlib

/-!
Verification of the core rule logic of eslint-plugin-prefer-object-params
(src/index.ts). The data model below is a shallow embedding of the AST
fragments the rule consumes, and each function mirrors the corresponding
source function: getPropertyKeyName, shouldIgnoreFunction, shouldIgnoreFile
and checkParams. JS strings become String, JS arrays become List, absent
JS object fields become Option.none, and booleans stay Bool.
-/

namespace PreferObjectParams

/-- Literal values that can appear as a property key in the AST. Numeric
literal keys are modelled as integers (String coercion of an integer JS
number agrees with Int.repr). The null literal is its own case. -/
inductive LitValue where
  | str (s : String)
  | num (m : Int)
  | boolean (b : Bool)
  | nullLit
deriving DecidableEq, Repr

/-- Property-key node shapes consumed by getPropertyKeyName: a plain
identifier, a literal, a private identifier, or any other expression
(for example a computed key whose expression is not a literal). -/
inductive PropKey where
  | identifier (name : String)
  | literal (v : LitValue)
  | privateIdentifier (name : String)
  | otherKey
deriving DecidableEq, Repr

/-- Parameter node shapes, as the source branches on param.type. The
synthetic TypeScript this parameter is an identifier whose name is the
string this, exactly as in the ESTree AST. An AssignmentPattern carries
its left binding and (opaquely, as source text) its default expression,
which the rule never reads. The other case stands for every parameter
node kind the source does not branch on (such as TSParameterProperty). -/
inductive Param where
  | ident (name : String)
  | objectPattern
  | arrayPattern
  | restElement
  | assign (left : Param) (rhs : String)
  | other
deriving DecidableEq, Repr

/-- Parent node contexts inspected by the rule. For variableDeclarator and
assignmentExpression the field is some name exactly when the declarator id
or assignment left-hand side is an Identifier node with that name. The
property and methodDefinition kinds are the kind strings of the AST. -/
inductive ParentNode where
  | methodDefinition (key : PropKey) (kind : String)
  | propertyDefinition (key : PropKey)
  | property (key : PropKey) (kind : String)
  | variableDeclarator (idIdent : Option String)
  | assignmentExpression (leftIdent : Option String)
  | otherParent
deriving DecidableEq, Repr

/-- Function-like node: FunctionDeclaration, FunctionExpression or
ArrowFunctionExpression. The id field is some name when node.id is an
Identifier with that name. -/
structure FunctionNode where
  id : Option String
  params : List Param
  parent : Option ParentNode
deriving DecidableEq, Repr

/-- Resolved configuration, after the create() defaults have been applied.
The two name lists play the role of the Sets built at create() time. -/
structure RuleOptions where
  ignoreFunctions : List String
  ignoreMethods : List String
  ignoreConstructors : Bool
  ignoreSingleParam : Bool
  ignoreNoParams : Bool
  ignoreTestFiles : Bool
  ignoreFiles : List String
deriving DecidableEq, Repr

/-- Anchor of a diagnostic: the function node itself, or the parameter at
a given index of the parameter list (the first violating parameter). -/
inductive Anchor where
  | funcNode
  | paramIdx (i : Nat)
deriving DecidableEq, Repr

/-- Data payload of a diagnostic. A field that the source report call does
not set is none (the zero-parameter report only sets name). -/
structure DiagData where
  name : String
  params : Option String
  paramsObj : Option String
deriving DecidableEq, Repr

/-- One diagnostic record handed to context.report. -/
structure Diagnostic where
  anchor : Anchor
  messageId : String
  data : DiagData
deriving DecidableEq, Repr

/-- JS String() coercion on the literal values above. -/
def jsLitString : LitValue → String
  | .str s => s
  | .num m => toString m
  | .boolean b => if b then "true" else "false"
  | .nullLit => "null"

/-- Embedding of getPropertyKeyName (src/index.ts lines 132 to 144). The
source returns String(key.value) only when key.value != null, so a literal
whose value is null falls through to the final return null. -/
def getPropertyKeyName : PropKey → Option String
  | .identifier n => some n
  | .literal .nullLit => none
  | .literal v => some (jsLitString v)
  | .privateIdentifier n => some ("#" ++ n)
  | .otherKey => none

/-- JS truthiness of the keyName string in tests of the form
keyName && set.has(keyName): the empty string is falsy. -/
def truthyName : Option String → Option String
  | some n => if n = "" then none else some n
  | none => none

/-- Membership test keyName && names.has(keyName) used for a member key. -/
def keyNameIn (names : List String) (key : PropKey) : Bool :=
  match truthyName (getPropertyKeyName key) with
  | some kn => names.contains kn
  | none => false

/-- Embedding of shouldIgnoreFunction (src/index.ts lines 149 to 205), as
the disjunction of its five sequential early returns. -/
def shouldIgnoreFunction (cfg : RuleOptions) (node : FunctionNode) : Bool :=
  (match node.parent with
   | some (.methodDefinition key kind) =>
       keyNameIn cfg.ignoreMethods key || (cfg.ignoreConstructors && kind == "constructor")
   | some (.propertyDefinition key) => keyNameIn cfg.ignoreMethods key
   | some (.property key kind) =>
       keyNameIn cfg.ignoreMethods key || (cfg.ignoreConstructors && kind == "constructor")
   | _ => false)
  || (match node.id with
      | some n => cfg.ignoreFunctions.contains n
      | none => false)
  || (node.id.isNone &&
      match node.parent with
      | some (.variableDeclarator (some n)) => cfg.ignoreFunctions.contains n
      | _ => false)
  || (node.id.isNone &&
      match node.parent with
      | some (.property key _) => keyNameIn cfg.ignoreFunctions key
      | _ => false)
  || (node.id.isNone &&
      match node.parent with
      | some (.assignmentExpression (some n)) => cfg.ignoreFunctions.contains n
      | _ => false)

/-- Lowercased character list of a string; models the case-insensitive
regex flag (the pattern itself only holds lowercase letters and dots). -/
def lowerStr (s : String) : List Char := s.data.map Char.toLower

/-- Embedding of the test-file regex of shouldIgnoreFile (src/index.ts
line 111): a case-insensitive match of the suffix dot test-or-spec dot
extension at end of string, with the alternation expanded. -/
def matchesTestPattern (filename : String) : Bool :=
  (["test", "spec"]).any fun k =>
    (["ts", "tsx", "js", "jsx", "mjs", "cjs"]).any fun e =>
      ("." ++ k ++ "." ++ e).data.isSuffixOf (lowerStr filename)

/-- Modelled from the spec: picomatch segment matching is an external
collaborator; the spec says a star matches within a path segment. This
matcher handles literal characters and the star wildcard on one segment. -/
def segMatch : List Char → List Char → Bool
  | [], [] => true
  | [], _ :: _ => false
  | '*' :: ps, cs =>
      segMatch ps cs ||
      (match cs with
       | [] => false
       | _ :: cs2 => segMatch ('*' :: ps) cs2)
  | _ :: _, [] => false
  | p :: ps, c :: cs => (p == c) && segMatch ps cs
termination_by l1 l2 => l1.length + l2.length

/-- Two stars, the cross-segment wildcard. -/
def starStar : List Char := ['*', '*']

/-- Modelled from the spec: picomatch glob semantics over the sequence of
path segments, where a double star matches zero or more whole segments and
every other pattern segment must match exactly one path segment. -/
def globSegs : List (List Char) → List (List Char) → Bool
  | [], [] => true
  | [], _ :: _ => false
  | pseg :: ps, segs =>
      if pseg = starStar then
        globSegs ps segs ||
        (match segs with
         | [] => false
         | _ :: rest => globSegs (pseg :: ps) rest)
      else
        match segs with
        | [] => false
        | seg :: rest => segMatch pseg seg && globSegs ps rest
termination_by l1 l2 => l1.length + l2.length

/-- Splits a character list on the path separator, like splitting a path
into its segments (an empty input gives one empty segment). -/
def splitSegs : List Char → List (List Char)
  | [] => [[]]
  | c :: cs =>
      match splitSegs cs with
      | [] => [[c]]
      | seg :: segs => if c = '/' then [] :: seg :: segs else (c :: seg) :: segs

/-- Modelled from the spec: one pattern matched against one path under the
glob semantics above. -/
def globMatch (pattern path : String) : Bool :=
  globSegs (splitSegs pattern.data) (splitSegs path.data)

/-- Modelled from the spec: picomatch applied to a pattern list matches a
path when any one pattern matches it. -/
def picomatchAny (patterns : List String) (path : String) : Bool :=
  patterns.any fun pat => globMatch pat path

/-- Embedding of shouldIgnoreFile (src/index.ts lines 102 to 126),
including the early return when neither mechanism is configured. -/
def shouldIgnoreFile (cfg : RuleOptions) (filename : String) : Bool :=
  if !cfg.ignoreTestFiles && cfg.ignoreFiles.isEmpty then false
  else if cfg.ignoreTestFiles && matchesTestPattern filename then true
  else if !cfg.ignoreFiles.isEmpty && picomatchAny cfg.ignoreFiles filename then true
  else false

/-- Embedding of the parameter loop of checkParams (src/index.ts lines 236
to 271), threading the current index. The pair holds the collected names
(paramNames) and the index of the first violation (firstViolationParam).
Object, array and rest patterns continue; an identifier named this
continues; any other identifier is collected; an assignment pattern is
collected only when its left side is an identifier; every remaining shape
falls through the branch chain without effect. -/
def scanLoop : List Param → Nat → List String × Option Nat
  | [], _ => ([], none)
  | .objectPattern :: rest, i => scanLoop rest (i + 1)
  | .arrayPattern :: rest, i => scanLoop rest (i + 1)
  | .restElement :: rest, i => scanLoop rest (i + 1)
  | .ident n :: rest, i =>
      if n = "this" then scanLoop rest (i + 1)
      else (n :: (scanLoop rest (i + 1)).1, some i)
  | .assign .objectPattern _ :: rest, i => scanLoop rest (i + 1)
  | .assign .arrayPattern _ :: rest, i => scanLoop rest (i + 1)
  | .assign (.ident n) _ :: rest, i => (n :: (scanLoop rest (i + 1)).1, some i)
  | .assign _ _ :: rest, i => scanLoop rest (i + 1)
  | .other :: rest, i => scanLoop rest (i + 1)

/-- Name of the enclosing variable declarator when its id is an
identifier. -/
def declaratorName (node : FunctionNode) : Option String :=
  match node.parent with
  | some (.variableDeclarator (some n)) => some n
  | _ => none

/-- Embedding of the functionName resolution of the multi-parameter report
(src/index.ts lines 275 to 277): own id name, else the enclosing variable
declarator identifier, else the placeholder, with JS truthiness. -/
def resolveFunctionName (node : FunctionNode) : String :=
  match truthyName node.id with
  | some n => n
  | none =>
      match truthyName (declaratorName node) with
      | some n => n
      | none => "function"

/-- Embedding of checkParams (src/index.ts lines 207 to 293). The returned
value is the diagnostic handed to context.report, or none when the visit
reports nothing. -/
def checkParams (cfg : RuleOptions) (filename : String) (node : FunctionNode) :
    Option Diagnostic :=
  if shouldIgnoreFile cfg filename then none
  else if shouldIgnoreFunction cfg node then none
  else
    let params := node.params
    if params.length = 0 then
      if !cfg.ignoreNoParams then
        some { anchor := .funcNode, messageId := "useObjectParams",
               data := { name := (truthyName node.id).getD "function",
                         params := none, paramsObj := none } }
      else none
    else if cfg.ignoreSingleParam && params.length == 1 then none
    else
      let scanned := scanLoop params 0
      match scanned.2 with
      | some i =>
          if scanned.1.isEmpty then none
          else
            some { anchor := .paramIdx i, messageId := "useObjectParams",
                   data := { name := resolveFunctionName node,
                             params := some (String.intercalate ", " scanned.1),
                             paramsObj :=
                               some ("\x7b " ++ String.intercalate ", " scanned.1 ++ " \x7d") } }
      | none => none

/-- Claim-side predicate: a parameter is offending iff it is a plain name
binding (an identifier other than the synthetic this parameter) or a
defaulted binding whose left side is a plain name binding. -/
def isOffending : Param → Bool
  | .ident n => !(n == "this")
  | .assign (.ident _) _ => true
  | _ => false

/-- Claim-side bound name contributed by an offending parameter. -/
def offendingName : Param → Option String
  | .ident n => if n = "this" then none else some n
  | .assign (.ident n) _ => some n
  | _ => none

/-- Default configuration of the rule (every option left unset). -/
def cfgDefault : RuleOptions :=
  { ignoreFunctions := [], ignoreMethods := [], ignoreConstructors := true,
    ignoreSingleParam := true, ignoreNoParams := true, ignoreTestFiles := true,
    ignoreFiles := [] }

/-- Named function with two plain parameters, as in function foo(a, b). -/
def nodeFooAB : FunctionNode :=
  { id := some "foo", params := [.ident "a", .ident "b"], parent := none }

theorem offendingName_isSome (p : Param) :
    (offendingName p).isSome = isOffending p := by
  cases p with
  | ident n => by_cases h : n = "this" <;> simp [offendingName, isOffending, h]
  | assign left rhs => cases left <;> simp [offendingName, isOffending]
  | _ => simp [offendingName, isOffending]

theorem scanLoop_fst (ps : List Param) :
    ∀ i, (scanLoop ps i).1 = ps.filterMap offendingName := by
  induction ps with
  | nil => intro i; rfl
  | cons p rest ih =>
      intro i
      cases p with
      | ident n =>
          by_cases h : n = "this" <;> simp [scanLoop, offendingName, h, ih]
      | assign left rhs =>
          cases left <;> simp [scanLoop, offendingName, ih]
      | _ => simp [scanLoop, offendingName, ih]

theorem scanLoop_snd_isSome (ps : List Param) :
    ∀ i, (scanLoop ps i).2.isSome = ps.any isOffending := by
  induction ps with
  | nil => intro i; rfl
  | cons p rest ih =>
      intro i
      cases p with
      | ident n =>
          by_cases h : n = "this" <;> simp [scanLoop, isOffending, h, ih]
      | assign left rhs =>
          cases left <;> simp [scanLoop, isOffending, ih]
      | _ => simp [scanLoop, isOffending, ih]

theorem offendingNames_nil_iff (ps : List Param) :
    ps.filterMap offendingName = [] ↔ ps.any isOffending = false := by
  rw [List.filterMap_eq_nil_iff, List.any_eq_false]
  refine forall_congr' fun p => forall_congr' fun _ => ?_
  rw [← offendingName_isSome]
  cases offendingName p <;> simp

/-- C1: for an in-scope function node with at least two parameters, the
visit reports iff some parameter is a plain name binding or a defaulted
plain name binding, and the reported name list (and its object rewrite)
is exactly the ordered sequence of the offending bound names. -/
theorem C1_multi_param_scan (cfg : RuleOptions) (filename : String)
    (node : FunctionNode)
    (hfile : shouldIgnoreFile cfg filename = false)
    (hfn : shouldIgnoreFunction cfg node = false)
    (hlen : 2 ≤ node.params.length) :
    ((checkParams cfg filename node).isSome = node.params.any isOffending) ∧
    ∀ d, checkParams cfg filename node = some d →
      d.data.params =
        some (String.intercalate ", " (node.params.filterMap offendingName)) ∧
      d.data.paramsObj =
        some ("\x7b " ++ String.intercalate ", " (node.params.filterMap offendingName)
              ++ " \x7d") := by
  have h0 : ¬ node.params.length = 0 := by omega
  have h1 : (node.params.length == 1) = false := by
    simp only [beq_eq_false_iff_ne, ne_eq]
    omega
  have hsnd := scanLoop_snd_isSome node.params 0
  have hfst := scanLoop_fst node.params 0
  rcases h2 : (scanLoop node.params 0).2 with _ | i
  · rw [h2] at hsnd
    simp only [Option.isSome_none] at hsnd
    constructor
    · simp [checkParams, hfile, hfn, h0, h1, h2, ← hsnd]
    · intro d hd
      simp [checkParams, hfile, hfn, h0, h1, h2] at hd
  · rw [h2] at hsnd
    simp only [Option.isSome_some] at hsnd
    have hne : ¬ node.params.filterMap offendingName = [] := by
      rw [offendingNames_nil_iff, ← hsnd]
      simp
    have hemp : (scanLoop node.params 0).1.isEmpty = false := by
      rw [hfst, List.isEmpty_eq_false_iff_exists_mem]
      rcases List.exists_mem_of_ne_nil _ hne with ⟨x, hx⟩
      exact ⟨x, hx⟩
    constructor
    · simp [checkParams, hfile, hfn, h0, h1, h2, hemp, ← hsnd]
    · intro d hd
      simp only [checkParams, hfile, hfn, Bool.false_eq_true, if_false, h0, if_neg,
        h1, Bool.and_false, h2, hemp] at hd
      injection hd with h3
      rw [← h3]
      simp [hfst]

theorem C1_multi_param_scan_witness :
    shouldIgnoreFile cfgDefault "src/app.ts" = false ∧
    shouldIgnoreFunction cfgDefault nodeFooAB = false ∧
    2 ≤ nodeFooAB.params.length ∧
    (checkParams cfgDefault "src/app.ts" nodeFooAB).isSome =
      nodeFooAB.params.any isOffending :=
  ⟨by decide, by decide, by decide,
   (C1_multi_param_scan cfgDefault "src/app.ts" nodeFooAB
     (by decide) (by decide) (by decide)).1⟩

/-- Anonymous function with two parameters of a shape the scan loop does
not branch on (for example TSParameterProperty). -/
def nodeOtherOther : FunctionNode :=
  { id := some "f", params := [.other, .other], parent := none }

/-- Left sides of an AssignmentPattern that the scan loop does not branch
on (everything other than object pattern, array pattern or identifier). -/
def unhandledLeft : Param → Bool
  | .objectPattern => false
  | .arrayPattern => false
  | .ident _ => false
  | _ => true

/-- C2 counterexample: a two-parameter function whose parameters are both
of an unenumerated shape produces no diagnostic, so the classifier does
not treat unrecognized shapes as offending. -/
theorem C2_counterexample :
    nodeOtherOther.params.length = 2 ∧
    (∀ p ∈ nodeOtherOther.params, p = Param.other) ∧
    checkParams cfgDefault "src/app.ts" nodeOtherOther = none := by decide

/-- C2 amended: a parameter of an unenumerated shape is silently skipped
by the scan loop, contributing no name and no first-violation anchor;
the same holds for a defaulted parameter whose left side is of a shape the
loop does not branch on. -/
theorem C2_unrecognized_skipped (ps : List Param) (i : Nat) :
    scanLoop (Param.other :: ps) i = scanLoop ps (i + 1) ∧
    ∀ (l : Param) (r : String), unhandledLeft l = true →
      scanLoop (Param.assign l r :: ps) i = scanLoop ps (i + 1) := by
  refine ⟨rfl, ?_⟩
  intro l r hl
  cases l <;> simp_all [unhandledLeft, scanLoop]

theorem C2_unrecognized_skipped_witness :
    unhandledLeft Param.restElement = true ∧
    scanLoop [Param.assign Param.restElement "x", Param.ident "a"] 0 =
      scanLoop [Param.ident "a"] 1 :=
  ⟨by decide,
   (C2_unrecognized_skipped [Param.ident "a"] 0).2 Param.restElement "x" (by decide)⟩

/-- Configuration that differs from the default only by reporting
functions with no parameters. -/
def cfgNoNoParams : RuleOptions := { cfgDefault with ignoreNoParams := false }

/-- Anonymous zero-parameter function bound by a variable declarator named
foo, as in const foo = () => {}. -/
def nodeAnonDecl : FunctionNode :=
  { id := none, params := [], parent := some (.variableDeclarator (some "foo")) }

/-- C3 counterexample: with ignoreNoParams false, the zero-parameter
report on an anonymous function assigned to the variable foo carries the
generic placeholder as its name: the enclosing variable-declarator name is
not consulted on this path. -/
theorem C3_counterexample :
    ((checkParams cfgNoNoParams "src/app.ts" nodeAnonDecl).map
        fun d => d.data.name) = some "function" ∧
    declaratorName nodeAnonDecl = some "foo" ∧
    ("function" : String) ≠ "foo" := by decide

/-- C3 amended: for an in-scope function with an empty parameter list the
result is Compliant iff ignoreNoParams is true; when false, a diagnostic
is emitted anchored at the function node, with no offending-name payload,
and with its name resolved from the own bound name only (else the generic
placeholder) — the enclosing variable-declarator name is not consulted. -/
theorem C3_zero_params (cfg : RuleOptions) (filename : String)
    (node : FunctionNode)
    (hfile : shouldIgnoreFile cfg filename = false)
    (hfn : shouldIgnoreFunction cfg node = false)
    (hp : node.params = []) :
    (checkParams cfg filename node = none ↔ cfg.ignoreNoParams = true) ∧
    (cfg.ignoreNoParams = false →
      checkParams cfg filename node =
        some { anchor := .funcNode, messageId := "useObjectParams",
               data := { name := (match node.id with
                                  | some n => if n = "" then "function" else n
                                  | none => "function"),
                         params := none, paramsObj := none } }) := by
  have hname : (truthyName node.id).getD "function" =
      (match node.id with
       | some n => if n = "" then "function" else n
       | none => "function") := by
    cases node.id with
    | none => rfl
    | some n => by_cases h : n = "" <;> simp [truthyName, h]
  constructor
  · cases hb : cfg.ignoreNoParams <;> simp [checkParams, hfile, hfn, hp, hb]
  · intro hb
    simp [checkParams, hfile, hfn, hp, hb, hname]

theorem C3_zero_params_witness :
    shouldIgnoreFile cfgNoNoParams "src/app.ts" = false ∧
    shouldIgnoreFunction cfgNoNoParams nodeAnonDecl = false ∧
    nodeAnonDecl.params = [] ∧
    (checkParams cfgNoNoParams "src/app.ts" nodeAnonDecl = none ↔
      cfgNoNoParams.ignoreNoParams = true) :=
  ⟨by decide, by decide, by decide,
   (C3_zero_params cfgNoNoParams "src/app.ts" nodeAnonDecl
     (by decide) (by decide) (by decide)).1⟩

/-- Named zero-parameter function, as in function foo() {}. -/
def nodeFooNoParams : FunctionNode :=
  { id := some "foo", params := [], parent := none }

/-- C4 counterexample: the zero-parameter diagnostic carries only the name
field; its params and paramsObj fields are absent, so not every diagnostic
carries all three data fields. -/
theorem C4_counterexample :
    checkParams cfgNoNoParams "src/app.ts" nodeFooNoParams =
      some { anchor := .funcNode, messageId := "useObjectParams",
             data := { name := "foo", params := none, paramsObj := none } } ∧
    ((checkParams cfgNoNoParams "src/app.ts" nodeFooNoParams).map
        fun d => d.data.params) = some none := by decide

/-- C4 amended: every emitted diagnostic carries messageId useObjectParams
and a name; a diagnostic from the parameter scan (nonempty parameter list)
carries params as the comma-joined offending names and paramsObj as the
braced object rewrite of the same names; the zero-parameter diagnostic
carries neither of those two fields. -/
theorem C4_diagnostic_payload (cfg : RuleOptions) (filename : String)
    (node : FunctionNode) (d : Diagnostic)
    (hd : checkParams cfg filename node = some d) :
    d.messageId = "useObjectParams" ∧
    (node.params = [] → d.data.params = none ∧ d.data.paramsObj = none) ∧
    (node.params ≠ [] →
      ∃ ns, ns ≠ [] ∧ ns = node.params.filterMap offendingName ∧
        d.data.params = some (String.intercalate ", " ns) ∧
        d.data.paramsObj = some ("\x7b " ++ String.intercalate ", " ns ++ " \x7d")) := by
  by_cases hfile : shouldIgnoreFile cfg filename
  · simp [checkParams, hfile] at hd
  by_cases hfn : shouldIgnoreFunction cfg node
  · simp [checkParams, hfile, hfn] at hd
  by_cases h0 : node.params.length = 0
  · have hp : node.params = [] := List.length_eq_zero.mp h0
    cases hb : cfg.ignoreNoParams
    · simp only [checkParams, hfile, hfn, h0, hb, Bool.false_eq_true, if_false,
        if_true, Bool.not_false, Option.some.injEq] at hd
      subst hd
      exact ⟨rfl, fun _ => ⟨rfl, rfl⟩, fun h => absurd hp h⟩
    · simp [checkParams, hfile, hfn, h0, hb] at hd
  · have hp : node.params ≠ [] := fun h => h0 (by simp [h])
    by_cases h1 : (cfg.ignoreSingleParam && node.params.length == 1) = true
    · simp [checkParams, hfile, hfn, h0, h1] at hd
    · rcases h2 : (scanLoop node.params 0).2 with _ | i
      · simp [checkParams, hfile, hfn, h0, h1, h2] at hd
      · by_cases hemp : (scanLoop node.params 0).1.isEmpty
        · simp [checkParams, hfile, hfn, h0, h1, h2, hemp] at hd
        · simp only [checkParams, hfile, hfn, h0, h1, h2, hemp, if_false,
            Bool.false_eq_true, if_neg, Option.some.injEq] at hd
          subst hd
          refine ⟨rfl, fun h => absurd h hp, fun _ => ?_⟩
          refine ⟨(scanLoop node.params 0).1, ?_, ?_, rfl, rfl⟩
          · intro h
            rw [h] at hemp
            exact hemp rfl
          · exact scanLoop_fst node.params 0

/-- Diagnostic emitted for the two-parameter function foo(a, b). -/
def diagFooAB : Diagnostic :=
  { anchor := .paramIdx 0, messageId := "useObjectParams",
    data := { name := "foo", params := some "a, b", paramsObj := some "\x7b a, b \x7d" } }

theorem C4_diagnostic_payload_witness :
    checkParams cfgDefault "src/app.ts" nodeFooAB = some diagFooAB ∧
    (diagFooAB.messageId = "useObjectParams" ∧
     (nodeFooAB.params = [] →
        diagFooAB.data.params = none ∧ diagFooAB.data.paramsObj = none) ∧
     (nodeFooAB.params ≠ [] →
        ∃ ns, ns ≠ [] ∧ ns = nodeFooAB.params.filterMap offendingName ∧
          diagFooAB.data.params = some (String.intercalate ", " ns) ∧
          diagFooAB.data.paramsObj =
            some ("\x7b " ++ String.intercalate ", " ns ++ " \x7d"))) :=
  ⟨by decide,
   C4_diagnostic_payload cfgDefault "src/app.ts" nodeFooAB diagFooAB (by decide)⟩

/-- C5 counterexample: a literal key whose value is null resolves to no
name available, not to the string null, because the source guards the
literal branch with a non-null test on the value. -/
theorem C5_counterexample :
    getPropertyKeyName (PropKey.literal LitValue.nullLit) = none ∧
    (none : Option String) ≠ some "null" := by decide

/-- C5 amended: an identifier key gives its text; a literal key with a
string, number or boolean value gives that value coerced to a string; a
literal key whose value is null gives no name available; a private name
gives the name prefixed with the hash marker; every other key form gives
no name available; and a key that resolves to no name available can never
satisfy a name-based exemption. -/
theorem C5_key_resolver :
    (∀ n, getPropertyKeyName (PropKey.identifier n) = some n) ∧
    (∀ s, getPropertyKeyName (PropKey.literal (LitValue.str s)) = some s) ∧
    (∀ m : Int,
      getPropertyKeyName (PropKey.literal (LitValue.num m)) = some (toString m)) ∧
    (∀ b, getPropertyKeyName (PropKey.literal (LitValue.boolean b)) =
      some (if b then "true" else "false")) ∧
    getPropertyKeyName (PropKey.literal LitValue.nullLit) = none ∧
    (∀ n, getPropertyKeyName (PropKey.privateIdentifier n) = some ("#" ++ n)) ∧
    getPropertyKeyName PropKey.otherKey = none ∧
    (∀ names : List String, keyNameIn names PropKey.otherKey = false) ∧
    (∀ names : List String,
      keyNameIn names (PropKey.literal LitValue.nullLit) = false) := by
  refine ⟨fun n => rfl, fun s => rfl, fun m => rfl, fun b => ?_, rfl,
    fun n => rfl, rfl, fun names => rfl, fun names => rfl⟩
  cases b <;> rfl

/-- C6: the file filter exempts a path iff the test-file mechanism applies
(enabled, and the lowercased path ends in a dot test-or-spec dot script
extension suffix) or the glob mechanism applies (nonempty pattern list and
some pattern matches); the glob mechanism is still evaluated when the
test-file mechanism is enabled but does not match. -/
theorem C6_file_filter (cfg : RuleOptions) (path : String) :
    shouldIgnoreFile cfg path = true ↔
      ((cfg.ignoreTestFiles = true ∧
        ∃ k ∈ (["test", "spec"] : List String),
          ∃ e ∈ (["ts", "tsx", "js", "jsx", "mjs", "cjs"] : List String),
            ("." ++ k ++ "." ++ e).data.isSuffixOf (lowerStr path) = true) ∨
       (cfg.ignoreFiles ≠ [] ∧
        ∃ pat ∈ cfg.ignoreFiles, globMatch pat path = true)) := by
  have key : shouldIgnoreFile cfg path =
      ((cfg.ignoreTestFiles && matchesTestPattern path) ||
       (!cfg.ignoreFiles.isEmpty && picomatchAny cfg.ignoreFiles path)) := by
    unfold shouldIgnoreFile
    cases ht : cfg.ignoreTestFiles <;> cases hE : cfg.ignoreFiles.isEmpty <;>
      cases hmt : matchesTestPattern path <;>
      cases hpa : picomatchAny cfg.ignoreFiles path <;> simp [ht, hE, hmt, hpa]
  have hm : matchesTestPattern path = true ↔
      ∃ k ∈ (["test", "spec"] : List String),
        ∃ e ∈ (["ts", "tsx", "js", "jsx", "mjs", "cjs"] : List String),
          ("." ++ k ++ "." ++ e).data.isSuffixOf (lowerStr path) = true := by
    simp [matchesTestPattern, List.any_eq_true]
  have hpm : picomatchAny cfg.ignoreFiles path = true ↔
      ∃ pat ∈ cfg.ignoreFiles, globMatch pat path = true := by
    simp [picomatchAny, List.any_eq_true]
  have hne : (!cfg.ignoreFiles.isEmpty) = true ↔ cfg.ignoreFiles ≠ [] := by
    simp [List.isEmpty_iff]
  rw [key, Bool.or_eq_true, Bool.and_eq_true, Bool.and_eq_true, hm, hpm, hne]

/-- C7: a function the Function Exemption Resolver exempts never produces
a diagnostic, and a method definition of kind constructor is exempt
whenever ignoreConstructors is true, independent of any name matching. -/
theorem C7_function_exemption (cfg : RuleOptions) (filename : String)
    (node : FunctionNode) :
    (shouldIgnoreFunction cfg node = true → checkParams cfg filename node = none) ∧
    ∀ key kind, node.parent = some (.methodDefinition key kind) →
      kind = "constructor" → cfg.ignoreConstructors = true →
      shouldIgnoreFunction cfg node = true := by
  constructor
  · intro h
    by_cases hfile : shouldIgnoreFile cfg filename <;> simp [checkParams, hfile, h]
  · intro key kind hparent hkind hic
    subst hkind
    simp [shouldIgnoreFunction, hparent, hic]

/-- Constructor method with two plain parameters, as in
class C { constructor(a, b) {} }. -/
def nodeCtor : FunctionNode :=
  { id := none, params := [.ident "a", .ident "b"],
    parent := some (.methodDefinition (.identifier "constructor") "constructor") }

theorem C7_function_exemption_witness :
    nodeCtor.parent =
      some (ParentNode.methodDefinition (PropKey.identifier "constructor")
        "constructor") ∧
    cfgDefault.ignoreConstructors = true ∧
    shouldIgnoreFunction cfgDefault nodeCtor = true ∧
    checkParams cfgDefault "src/app.ts" nodeCtor = none := by
  have h := C7_function_exemption cfgDefault "src/app.ts" nodeCtor
  have hex := h.2 (PropKey.identifier "constructor") "constructor"
    (by decide) rfl (by decide)
  exact ⟨by decide, by decide, hex, h.1 hex⟩

/-- C8: when the file filter exempts the current file, no node of that
file produces a diagnostic, whatever the function-level settings say. -/
theorem C8_file_short_circuit (cfg : RuleOptions) (filename : String)
    (h : shouldIgnoreFile cfg filename = true) :
    ∀ node, checkParams cfg filename node = none := by
  intro node
  simp [checkParams, h]

/-- Configuration whose function-level settings report as much as
possible: single-parameter and zero-parameter functions included. -/
def cfgAllReport : RuleOptions :=
  { cfgDefault with ignoreSingleParam := false, ignoreNoParams := false }

theorem C8_file_short_circuit_witness :
    shouldIgnoreFile cfgAllReport "a.test.ts" = true ∧
    checkParams cfgAllReport "a.test.ts" nodeFooAB = none :=
  ⟨by decide, C8_file_short_circuit cfgAllReport "a.test.ts" (by decide) nodeFooAB⟩

/-- C9: a function with exactly one parameter is Compliant whenever
ignoreSingleParam is true, regardless of the shape of that parameter. -/
theorem C9_single_param (cfg : RuleOptions) (filename : String)
    (node : FunctionNode)
    (h1 : cfg.ignoreSingleParam = true) (h2 : node.params.length = 1) :
    checkParams cfg filename node = none := by
  by_cases hfile : shouldIgnoreFile cfg filename
  · simp [checkParams, hfile]
  · by_cases hfn : shouldIgnoreFunction cfg node
    · simp [checkParams, hfile, hfn]
    · have h0 : ¬ node.params.length = 0 := by omega
      simp [checkParams, hfile, hfn, h0, h1, h2]

/-- Named function with one plain parameter, as in function f(a) {}. -/
def nodeSingleA : FunctionNode :=
  { id := some "f", params := [.ident "a"], parent := none }

theorem C9_single_param_witness :
    cfgDefault.ignoreSingleParam = true ∧
    nodeSingleA.params.length = 1 ∧
    checkParams cfgDefault "src/app.ts" nodeSingleA = none :=
  ⟨by decide, by decide,
   C9_single_param cfgDefault "src/app.ts" nodeSingleA (by decide) (by decide)⟩

/-- C10: a function whose only parameter is the synthetic this parameter
is Compliant under every configuration: the list has length one, so the
zero-parameter rule never fires, and the scan skips the this identifier,
so no offending name is ever collected. -/
theorem C10_this_only (cfg : RuleOptions) (filename : String)
    (node : FunctionNode) (h : node.params = [Param.ident "this"]) :
    checkParams cfg filename node = none := by
  have hscan : scanLoop [Param.ident "this"] 0 = ([], none) := by decide
  by_cases hfile : shouldIgnoreFile cfg filename
  · simp [checkParams, hfile]
  · by_cases hfn : shouldIgnoreFunction cfg node
    · simp [checkParams, hfile, hfn]
    · cases hsp : cfg.ignoreSingleParam <;>
        simp [checkParams, hfile, hfn, h, hsp, hscan]

/-- Function whose only parameter is the synthetic this parameter, as in
function f(this: T) {}. -/
def nodeThisOnly : FunctionNode :=
  { id := some "f", params := [.ident "this"], parent := none }

theorem C10_this_only_witness :
    nodeThisOnly.params = [Param.ident "this"] ∧
    cfgAllReport.ignoreNoParams = false ∧
    cfgAllReport.ignoreSingleParam = false ∧
    checkParams cfgAllReport "src/app.ts" nodeThisOnly = none :=
  ⟨by decide, by decide, by decide,
   C10_this_only cfgAllReport "src/app.ts" nodeThisOnly (by decide)⟩

end PreferObjectParams
